import Mathlib

/-!
Verification of the `dso-data-age-anonymizer` date-shifting filter
(`main.py`) against its specification.

The development is a shallow embedding of the program:

* Text is modelled as `List Char` (the decoded content of the input file;
  `errors` set to ignore on decode is the encoding round-trip caveat of the
  spec and stays outside the model).
* Python `datetime` arithmetic is embedded with the proleptic Gregorian
  calendar functions the library documents: `toOrdinal` (`date.toordinal`),
  `fromOrdinal` (`date.fromordinal`, transcribed from CPython's
  `_ord2ymd`), and validity of `(year, month, day)` triples.
* `random.Random(seed)` is modelled as an abstract stream `g : Nat → Nat`
  of raw draws fixed by the seed, with `randint lo hi` taking draw `k` to
  `lo + g k % (hi + 1 - lo)`, the documented contract of a uniform draw on
  the closed interval `[lo, hi]`; the state threaded through a run is the
  index of the next draw.
* The `strptime`/`strftime` pair is embedded for the format strings the
  specification discusses, on the ten-character tokens the scanner emits
  (the only strings the program ever parses): the default `%Y-%m-%d`, the
  shape-incompatible `%d/%m/%Y`, and `%Y-%H-%M` (a non-default format that
  does parse scanner tokens).  `%Y` renders as glibc `strftime` emits it:
  the year's decimal digits without zero padding, so years below 1000
  render with fewer than four digits.
* The scan-and-substitute loop (`re.sub` with the fixed
  `\d{4}-\d{2}-\d{2}` pattern and the `replace_date` callback) is embedded
  as `subDates`, a leftmost, non-overlapping scan; the per-line file loop
  as `processLines` over `splitLines`; text-mode universal-newline
  translation on read as `univNL` (platform line separator on write taken
  to be LF).
-/

/-! ## Definitions -/

/-- Leap-year test of the proleptic Gregorian calendar
(`calendar.isleap` / `datetime._is_leap`). -/
def isLeap (y : Nat) : Bool :=
  y % 4 == 0 && (y % 100 != 0 || y % 400 == 0)

/-- Days in each month of a non-leap year (`datetime._DAYS_IN_MONTH`). -/
def daysInMonthT : Nat → Nat
  | 1 => 31 | 2 => 28 | 3 => 31 | 4 => 30 | 5 => 31 | 6 => 30
  | 7 => 31 | 8 => 31 | 9 => 30 | 10 => 31 | 11 => 30 | 12 => 31
  | _ => 0

/-- Days in a month of a given year (`datetime._days_in_month`). -/
def daysInMonth (y m : Nat) : Nat :=
  if m = 2 ∧ isLeap y then 29 else daysInMonthT m

/-- Cumulative days before each month in a non-leap year
(`datetime._DAYS_BEFORE_MONTH`). -/
def daysBeforeMonthT : Nat → Nat
  | 1 => 0 | 2 => 31 | 3 => 59 | 4 => 90 | 5 => 120 | 6 => 151
  | 7 => 181 | 8 => 212 | 9 => 243 | 10 => 273 | 11 => 304 | 12 => 334
  | _ => 365

/-- Days in the year preceding the first of the month
(`datetime._days_before_month`). -/
def daysBeforeMonth (y m : Nat) : Nat :=
  daysBeforeMonthT m + if 2 < m ∧ isLeap y then 1 else 0

/-- Days before January 1st of year `y` (`datetime._days_before_year`). -/
def daysBeforeYear (y : Nat) : Nat :=
  365 * (y - 1) + (y - 1) / 4 - (y - 1) / 100 + (y - 1) / 400

/-- A calendar date as Python's `datetime.date` carries it. -/
structure Date where
  year : Nat
  month : Nat
  day : Nat
deriving DecidableEq, Repr

/-- The invariant `datetime.date` enforces on construction
(`MINYEAR = 1`, `MAXYEAR = 9999`). -/
def isValidDate (d : Date) : Prop :=
  1 ≤ d.year ∧ d.year ≤ 9999 ∧ 1 ≤ d.month ∧ d.month ≤ 12 ∧
    1 ≤ d.day ∧ d.day ≤ daysInMonth d.year d.month

instance (d : Date) : Decidable (isValidDate d) := by
  unfold isValidDate; infer_instance

/-- The `date.toordinal()` value: day number in the proleptic Gregorian calendar,
with 0001-01-01 mapped to 1 (`datetime._ymd2ord`). -/
def toOrdinal (d : Date) : Nat :=
  daysBeforeYear d.year + daysBeforeMonth d.year d.month + d.day

/-- The constant `datetime._MAXORDINAL`, the ordinal of 9999-12-31. -/
def maxOrdinal : Nat := 3652059

/-- Month/day recovery from a 0-based day of the year, as in the tail of
CPython's `_ord2ymd`: an over-estimate of the month from `(r1 + 50) >> 5`,
corrected by at most one. -/
def monthDay (leap : Bool) (r1 : Nat) : Nat × Nat :=
  let month := (r1 + 50) / 32
  let preceding := daysBeforeMonthT month + (if 2 < month ∧ leap then 1 else 0)
  if r1 < preceding then
    let m := month - 1
    let pre2 := preceding - (daysInMonthT m + (if m = 2 ∧ leap then 1 else 0))
    (m, r1 - pre2 + 1)
  else
    (month, r1 - preceding + 1)

/-- Model of `date.fromordinal` (`datetime._ord2ymd`): decompose the 0-based day
count into 400-year, 100-year, 4-year and 1-year cycles, special-casing the
last day of a 4-year and of a 400-year cycle. -/
def fromOrdinal (n : Nat) : Date :=
  let n0 := n - 1
  let n400 := n0 / 146097
  let r400 := n0 % 146097
  let n100 := r400 / 36524
  let r100 := r400 % 36524
  let n4 := r100 / 1461
  let r4 := r100 % 1461
  let n1 := r4 / 365
  let r1 := r4 % 365
  let year := 400 * n400 + 100 * n100 + 4 * n4 + n1 + 1
  if n1 = 4 ∨ n100 = 4 then
    ⟨year - 1, 12, 31⟩
  else
    let leap : Bool := decide (n1 = 3 ∧ (¬ n4 = 24 ∨ n100 = 3))
    let md := monthDay leap r1
    ⟨year, md.1, md.2⟩

/-- The character class the scanner's digit positions accept.  The model's
alphabet restricts the pattern's digit class to the ASCII digits; the
program-side class is `\d`. -/
def isAsciiDigit (c : Char) : Bool := decide (48 ≤ c.toNat ∧ c.toNat ≤ 57)

/-- Numeric value of an ASCII digit, as `int` reads one digit. -/
def dval (c : Char) : Nat := c.toNat - 48

/-- The ASCII digit character for a value below ten (rendering side). -/
def dchar (k : Nat) : Char := Char.ofNat (48 + k)

/-- The scanner's fixed lexical pattern `\d{4}-\d{2}-\d{2}` as a predicate
on a ten-character window (`re.compile` at line 92 of `main.py`); it does
not depend on the configured date format. -/
def dateShape (l : List Char) : Bool :=
  match l with
  | [y1, y2, y3, y4, h1, m1, m2, h2, d1, d2] =>
    decide (isAsciiDigit y1 = true ∧ isAsciiDigit y2 = true ∧
      isAsciiDigit y3 = true ∧ isAsciiDigit y4 = true ∧ h1 = '-' ∧
      isAsciiDigit m1 = true ∧ isAsciiDigit m2 = true ∧ h2 = '-' ∧
      isAsciiDigit d1 = true ∧ isAsciiDigit d2 = true)
  | _ => false

/-- The format strings (`--date_format` values) the specification
discusses: the default, a shape-incompatible pattern, and a non-default
pattern that still consumes scanner tokens. -/
inductive Fmt
  | ymd
  | dmy
  | yhm
deriving DecidableEq, Repr

/-- Model of `datetime.strptime(s, "%Y-%m-%d").date()` on ten-character
strings (the scanner only ever hands the program such strings).  `%Y`
consumes exactly four digits, `%m` and `%d` here always see two digits, the
hyphens are literals, and constructing the `datetime` enforces
`1 <= year`, `1 <= month <= 12`, `1 <= day <= days_in_month`; any failure
raises `ValueError`, modelled as `none`. -/
def parseYMDtok : List Char → Option Date
  | [y1, y2, y3, y4, h1, m1, m2, h2, d1, d2] =>
    if isAsciiDigit y1 = true ∧ isAsciiDigit y2 = true ∧ isAsciiDigit y3 = true ∧
        isAsciiDigit y4 = true ∧ h1 = '-' ∧ isAsciiDigit m1 = true ∧
        isAsciiDigit m2 = true ∧ h2 = '-' ∧ isAsciiDigit d1 = true ∧
        isAsciiDigit d2 = true then
      let y := 1000 * dval y1 + 100 * dval y2 + 10 * dval y3 + dval y4
      let m := 10 * dval m1 + dval m2
      let d := 10 * dval d1 + dval d2
      if 1 ≤ y ∧ 1 ≤ m ∧ m ≤ 12 ∧ 1 ≤ d ∧ d ≤ daysInMonth y m then
        some ⟨y, m, d⟩
      else none
    else none
  | _ => none

/-- Model of `datetime.strptime(s, "%d/%m/%Y").date()` on ten-character
strings: the only ten-character shape the pattern consumes in full is
digit digit slash digit digit slash digit digit digit digit. -/
def parseDMYtok : List Char → Option Date
  | [d1, d2, s1, m1, m2, s2, y1, y2, y3, y4] =>
    if isAsciiDigit d1 = true ∧ isAsciiDigit d2 = true ∧ s1 = '/' ∧
        isAsciiDigit m1 = true ∧ isAsciiDigit m2 = true ∧ s2 = '/' ∧
        isAsciiDigit y1 = true ∧ isAsciiDigit y2 = true ∧
        isAsciiDigit y3 = true ∧ isAsciiDigit y4 = true then
      let y := 1000 * dval y1 + 100 * dval y2 + 10 * dval y3 + dval y4
      let m := 10 * dval m1 + dval m2
      let d := 10 * dval d1 + dval d2
      if 1 ≤ y ∧ 1 ≤ m ∧ m ≤ 12 ∧ 1 ≤ d ∧ d ≤ daysInMonth y m then
        some ⟨y, m, d⟩
      else none
    else none
  | _ => none

/-- Model of `datetime.strptime(s, "%Y-%H-%M").date()` on ten-character
strings: four-digit year, literal hyphen, two-digit hour `00..23`, literal
hyphen, two-digit minute `00..59`; month and day take `strptime`'s
defaults (January 1), and `.date()` drops the time of day. -/
def parseYHMtok : List Char → Option Date
  | [y1, y2, y3, y4, h1, a1, a2, h2, b1, b2] =>
    if isAsciiDigit y1 = true ∧ isAsciiDigit y2 = true ∧ isAsciiDigit y3 = true ∧
        isAsciiDigit y4 = true ∧ h1 = '-' ∧ isAsciiDigit a1 = true ∧
        isAsciiDigit a2 = true ∧ h2 = '-' ∧ isAsciiDigit b1 = true ∧
        isAsciiDigit b2 = true then
      let y := 1000 * dval y1 + 100 * dval y2 + 10 * dval y3 + dval y4
      let hh := 10 * dval a1 + dval a2
      let mm := 10 * dval b1 + dval b2
      if 1 ≤ y ∧ hh ≤ 23 ∧ mm ≤ 59 then some ⟨y, 1, 1⟩ else none
    else none
  | _ => none

/-- Two-digit zero-padded rendering (`%m`, `%d`, `%H`, `%M`). -/
def pad2 (k : Nat) : List Char := [dchar (k / 10 % 10), dchar (k % 10)]

/-- Four fixed decimal digits; `yearDigits` coincides with this on
years 1000..9999. -/
def pad4 (k : Nat) : List Char :=
  [dchar (k / 1000 % 10), dchar (k / 100 % 10), dchar (k / 10 % 10), dchar (k % 10)]

/-- The year as glibc `strftime` renders `%Y`: its decimal digits with no
zero padding (`date(1,1,1).strftime("%Y")` is `"1"`).  Years reaching this
function are valid ones, hence in 1..9999. -/
def yearDigits (y : Nat) : List Char :=
  (if 1000 ≤ y then [dchar (y / 1000 % 10)] else []) ++
    (if 100 ≤ y then [dchar (y / 100 % 10)] else []) ++
    (if 10 ≤ y then [dchar (y / 10 % 10)] else []) ++ [dchar (y % 10)]

/-- Rendering by `date.strftime("%Y-%m-%d")` on glibc: unpadded year,
two-digit month and day (`date(1,1,1)` renders as `1-01-01`). -/
def renderYMD (d : Date) : List Char :=
  yearDigits d.year ++ '-' :: (pad2 d.month ++ '-' :: pad2 d.day)

/-- Rendering by `date.strftime("%d/%m/%Y")` on glibc. -/
def renderDMY (d : Date) : List Char :=
  pad2 d.day ++ '/' :: (pad2 d.month ++ '/' :: yearDigits d.year)

/-- Rendering by `date.strftime("%Y-%H-%M")` on glibc: a `date` has no
time of day, so `%H` and `%M` render as `00`. -/
def renderYHM (d : Date) : List Char :=
  yearDigits d.year ++ ('-' :: '0' :: '0' :: '-' :: '0' :: '0' :: [])

/-- Parsing with `strptime` under the configured format, on scanner tokens. -/
def parseTok : Fmt → List Char → Option Date
  | .ymd, l => parseYMDtok l
  | .dmy, l => parseDMYtok l
  | .yhm, l => parseYHMtok l

/-- Rendering with `strftime` under the configured format. -/
def renderD : Fmt → Date → List Char
  | .ymd, d => renderYMD d
  | .dmy, d => renderDMY d
  | .yhm, d => renderYHM d

/-- Model of `random.Random(seed)`: the seed fixes an infinite stream
`g : Nat → Nat` of raw draws; `randint lo hi` maps draw `k` into the
closed interval `[lo, hi]` — its documented contract is one uniformly
distributed integer, modelled as `lo + g k mod (hi + 1 - lo)` — consuming
exactly one position of the stream. -/
def randint (g : Nat → Nat) (lo hi : Int) (k : Nat) : Int :=
  lo + (g k : Int) % (hi + 1 - lo)

/-- Result of one `shift_date` call: the rendered replacement (or `None`),
the next draw index, and whether a warning- or error-level line was
logged. -/
structure SRes where
  out : Option (List Char)
  next : Nat
  warned : Bool
  errored : Bool
deriving DecidableEq, Repr

/-- Model of `shift_date` (lines 39-62 of `main.py`): parse under the configured
format (`ValueError` → warning log, `None`, no draw consumed); then draw
`randint(-max_shift_days, max_shift_days)` — with a negative bound
`randint` itself raises `ValueError`, caught by the same handler, again
without consuming a draw; then add the offset with proleptic-Gregorian
day arithmetic (`date + timedelta(days=s)` is
`fromordinal(toordinal + s)`), where a result outside `[1, maxOrdinal]`
raises `OverflowError`, caught by the catch-all handler (error log,
`None`) after the draw was already consumed; finally re-render with
`strftime` under the same format. -/
def shift_date (g : Nat → Nat) (fmt : Fmt) (M : Int) (tok : List Char) (k : Nat) : SRes :=
  match parseTok fmt tok with
  | none => ⟨none, k, true, false⟩
  | some d =>
    if M < 0 then ⟨none, k, true, false⟩
    else
      let s := randint g (-M) M k
      let o := (toOrdinal d : Int) + s
      if 1 ≤ o ∧ o ≤ (maxOrdinal : Int) then
        ⟨some (renderD fmt (fromOrdinal o.toNat)), k + 1, false, false⟩
      else
        ⟨none, k + 1, false, true⟩

/-- Run state threaded through the substitutions: index of the next raw
draw in the seeded stream, and counts of warning/error log lines. -/
structure St where
  idx : Nat
  warns : Nat
  errs : Nat
deriving DecidableEq, Repr

/-- State update after one `replace_date` callback. -/
def advanceSt (st : St) (r : SRes) : St :=
  ⟨r.next, st.warns + (if r.warned then 1 else 0),
    st.errs + (if r.errored then 1 else 0)⟩

/-- Model of `date_regex.sub(replace_date, line)` (lines 94-103): leftmost,
non-overlapping scan.  At each position, if the next ten characters match
the lexical pattern they go to `shift_date`, whose result (or the
original token, when it returns `None` — line 101) is emitted and the scan
resumes after the token; otherwise one character is copied. -/
def subDates (g : Nat → Nat) (fmt : Fmt) (M : Int) : List Char → St → List Char × St
  | [], st => ([], st)
  | c :: cs, st =>
    if dateShape ((c :: cs).take 10) then
      let r := shift_date g fmt M ((c :: cs).take 10) st.idx
      let tail := subDates g fmt M ((c :: cs).drop 10) (advanceSt st r)
      (r.out.getD ((c :: cs).take 10) ++ tail.1, tail.2)
    else
      let tail := subDates g fmt M cs st
      (c :: tail.1, tail.2)
termination_by l _ => l.length
decreasing_by
  all_goals simp [List.length_drop]
  all_goals omega

/-- Number of scanner matches of a line whose token parses under the
configured format: exactly the matches that consume a draw. -/
def countLine (fmt : Fmt) : List Char → Nat
  | [] => 0
  | c :: cs =>
    if dateShape ((c :: cs).take 10) then
      (if (parseTok fmt ((c :: cs).take 10)).isSome then 1 else 0) +
        countLine fmt ((c :: cs).drop 10)
    else
      countLine fmt cs
termination_by l => l.length
decreasing_by
  all_goals simp [List.length_drop]
  all_goals omega

/-- Universal-newline translation performed by text-mode reading
(`open(..., "r", ...)` with the default `newline=None`): each `\r\n` pair
and each lone `\r` is translated to `\n` in the text the program sees. -/
def univNL : List Char → List Char
  | [] => []
  | '\r' :: '\n' :: rest => '\n' :: univNL rest
  | '\r' :: rest => '\n' :: univNL rest
  | c :: rest => c :: univNL rest

/-- Iterating a text file yields its lines, terminators kept (after
universal-newline translation, every terminator is `\n`); a last line
without a terminator is yielded as-is. -/
def splitLinesAux : List Char → List Char → List (List Char)
  | [], acc => if acc = [] then [] else [acc.reverse]
  | c :: cs, acc =>
    if c = '\n' then (acc.reverse ++ ['\n']) :: splitLinesAux cs []
    else splitLinesAux cs (c :: acc)

def splitLines (l : List Char) : List (List Char) := splitLinesAux l []

/-- The read/transform/write loop (lines 94-104): substitute in each line
in order, threading the single random stream, concatenating what is
written. -/
def processLines (g : Nat → Nat) (fmt : Fmt) (M : Int) :
    List (List Char) → St → List Char × St
  | [], st => ([], st)
  | l :: ls, st =>
    let r := subDates g fmt M l st
    let rest := processLines g fmt M ls r.2
    (r.1 ++ rest.1, rest.2)

/-- The complete text transformation of one run: universal-newline
translation on read, then the line loop.  Writing back maps `\n` to
`os.linesep`, taken here to be `\n` (GNU/Linux). -/
def anonymize_text (g : Nat → Nat) (fmt : Fmt) (M : Int) (text : List Char) (st : St) :
    List Char × St :=
  processLines g fmt M (splitLines (univNL text)) st

/-- Draw count of a whole text, line by line. -/
def countText (fmt : Fmt) (t : List Char) : Nat :=
  ((splitLines t).map (countLine fmt)).sum

/-- The file-system facts `anonymize_data` consults: whether the input
path exists, the decoded input text, what `chardet` would report
(`none` for an unusable/failed detection), and whether the
read/transform/write loop hits an exception. -/
structure FileSys where
  inputExists : Bool
  inputText : List Char
  detectResult : Option (List Char)
  loopFails : Bool

/-- Outcome of `anonymize_data` (lines 64-108): two early returns before
any output I/O, a caught exception inside the processing loop (output
already opened; error logged), or completion. -/
inductive RunResult
  | errNoInput
  | errNoEncoding
  | errLoop
  | done (out : List Char) (st : St)
deriving DecidableEq, Repr

/-- Whether the run reached `open(output_file, "w", ...)`. -/
def outputOpened : RunResult → Bool
  | .errNoInput => false
  | .errNoEncoding => false
  | .errLoop => true
  | .done _ _ => true

/-- Text written to the output file; `[]` when it was never opened (for
the caught loop failure the already-flushed prefix is not tracked). -/
def outputWritten : RunResult → List Char
  | .done out _ => out
  | _ => []

/-- Model of `anonymize_data` (lines 64-108): return early if the input path does
not exist; resolve the encoding (explicit argument used unconditionally,
otherwise `chardet`, returning early if that yields nothing usable); only
then open input and output and run the loop with a fresh
`random.Random(seed)` (draw index 0), catching any exception the loop
raises. -/
def anonymize_data (w : FileSys) (g : Nat → Nat) (fmt : Fmt) (M : Int)
    (encodingArg : Option (List Char)) : RunResult :=
  if w.inputExists = false then .errNoInput
  else
    match encodingArg, w.detectResult with
    | none, none => .errNoEncoding
    | _, _ =>
      if w.loopFails then .errLoop
      else
        let r := anonymize_text g fmt M w.inputText ⟨0, 0, 0⟩
        .done r.1 r.2

/-- What `main` (lines 110-121) does: it always returns normally (exit
status 0); the payload records whether an error-level line was logged. -/
inductive MainResult
  | returned (loggedError : Bool)
deriving DecidableEq, Repr

/-- Model of `main` (lines 110-121): reject a non-positive `max_shift_days` with a
logged error, otherwise run `anonymize_data`; all of its failure outcomes
were already logged inside it, and `main` just falls off the end. -/
def mainRun (w : FileSys) (g : Nat → Nat) (fmt : Fmt) (M : Int)
    (encodingArg : Option (List Char)) : MainResult :=
  if M ≤ 0 then .returned true
  else
    match anonymize_data w g fmt M encodingArg with
    | .errNoInput => .returned true
    | .errNoEncoding => .returned true
    | .errLoop => .returned true
    | .done _ _ => .returned false

/-- One segment of a scan: a literal character copied through unchanged,
or a matched token together with what was emitted for it. -/
inductive Seg
  | lit (c : Char)
  | tok (orig repl : List Char)

/-- The input text a segment list stands for. -/
def segsOrig : List Seg → List Char
  | [] => []
  | .lit c :: ss => c :: segsOrig ss
  | .tok o _ :: ss => o ++ segsOrig ss

/-- The output text a segment list stands for. -/
def segsOut : List Seg → List Char
  | [] => []
  | .lit c :: ss => c :: segsOut ss
  | .tok _ r :: ss => r ++ segsOut ss

/-- Token segments are exactly scanner matches. -/
def segWellFormed : Seg → Prop
  | .lit _ => True
  | .tok o _ => dateShape o = true

/-- Whether some position of a text starts a scanner match. -/
def hasDateWindow : List Char → Bool
  | [] => false
  | c :: cs => dateShape ((c :: cs).take 10) || hasDateWindow cs

/-- Concrete draw streams and a fresh run state, for the concrete
instances below. -/
def gzero : Nat → Nat := fun _ => 0

/-- A second literal form of the all-zero stream (pointwise equal to
`gzero`, syntactically different). -/
def gzeroMul : Nat → Nat := fun n => 0 * n

/-- A constant stream drawing raw value 3. -/
def gconst3 : Nat → Nat := fun _ => 3

/-- A constant stream drawing raw value 6. -/
def gconst6 : Nat → Nat := fun _ => 6

/-- A fresh run state: next draw index 0, nothing logged. -/
def st0 : St := ⟨0, 0, 0⟩

/-- A file-system state whose input path is missing. -/
def wMissing : FileSys := ⟨false, [], none, false⟩

/-- A file-system state with an existing input but failed detection. -/
def wNoEnc : FileSys := ⟨true, [], none, false⟩

/-! ## Theorems -/

theorem isLeap_iff (y : Nat) :
    isLeap y = true ↔ (y % 4 = 0 ∧ (¬ y % 100 = 0 ∨ y % 400 = 0)) := by
  simp [isLeap, Bool.or_eq_true, Bool.and_eq_true]

set_option maxRecDepth 4000 in
theorem monthDay_correct (leap : Bool) : ∀ r1 < 365,
    1 ≤ (monthDay leap r1).1 ∧ (monthDay leap r1).1 ≤ 12 ∧
    1 ≤ (monthDay leap r1).2 ∧
    (monthDay leap r1).2 ≤
      (if (monthDay leap r1).1 = 2 ∧ leap then 29 else daysInMonthT (monthDay leap r1).1) ∧
    daysBeforeMonthT (monthDay leap r1).1 +
      (if 2 < (monthDay leap r1).1 ∧ leap then 1 else 0) + (monthDay leap r1).2 = r1 + 1 := by
  cases leap <;> decide

theorem ord2ymd_correct (n n400 r400 n100 r100 n4 r4 n1 r1 : Nat)
    (h1 : 1 ≤ n) (h2 : n ≤ 3652059)
    (e1 : 146097 * n400 + r400 = n - 1) (b1 : r400 < 146097)
    (e2 : 36524 * n100 + r100 = r400) (b2 : r100 < 36524)
    (e3 : 1461 * n4 + r4 = r100) (b3 : r4 < 1461)
    (e4 : 365 * n1 + r1 = r4) (b4 : r1 < 365) :
    isValidDate
      (if n1 = 4 ∨ n100 = 4 then
        ⟨400 * n400 + 100 * n100 + 4 * n4 + n1 + 1 - 1, 12, 31⟩
      else
        ⟨400 * n400 + 100 * n100 + 4 * n4 + n1 + 1,
          (monthDay (decide (n1 = 3 ∧ (¬ n4 = 24 ∨ n100 = 3))) r1).1,
          (monthDay (decide (n1 = 3 ∧ (¬ n4 = 24 ∨ n100 = 3))) r1).2⟩) ∧
    toOrdinal
      (if n1 = 4 ∨ n100 = 4 then
        ⟨400 * n400 + 100 * n100 + 4 * n4 + n1 + 1 - 1, 12, 31⟩
      else
        ⟨400 * n400 + 100 * n100 + 4 * n4 + n1 + 1,
          (monthDay (decide (n1 = 3 ∧ (¬ n4 = 24 ∨ n100 = 3))) r1).1,
          (monthDay (decide (n1 = 3 ∧ (¬ n4 = 24 ∨ n100 = 3))) r1).2⟩) = n := by
  split_ifs with hspec
  · -- last day of a 4-year or of a 400-year cycle: December 31st of a leap year
    have hleap : isLeap (400 * n400 + 100 * n100 + 4 * n4 + n1 + 1 - 1) = true := by
      rw [isLeap_iff]; omega
    constructor
    · simp only [isValidDate, daysInMonth, daysInMonthT]
      norm_num
      omega
    · dsimp only [toOrdinal]
      simp only [daysBeforeMonth, daysBeforeMonthT, hleap]
      norm_num
      simp only [daysBeforeYear]
      obtain ⟨k, hk⟩ : ∃ k, 400 * n400 + 100 * n100 + 4 * n4 + n1 - 1 = k :=
        ⟨_, rfl⟩
      rw [hk]
      rcases hspec with hs | hs
      · have hn4 : n4 ≤ 23 := by omega
        have hn100 : n100 ≤ 3 := by omega
        have q4 : k / 4 = 100 * n400 + 25 * n100 + n4 := by omega
        have q100 : k / 100 = 4 * n400 + n100 := by omega
        have q400 : k / 400 = n400 := by omega
        rw [q4, q100, q400]
        omega
      · have hz : r100 = 0 ∧ n4 = 0 ∧ r4 = 0 ∧ n1 = 0 ∧ r1 = 0 := by omega
        obtain ⟨hz1, hz2, hz3, hz4, hz5⟩ := hz
        have q4 : k / 4 = 100 * n400 + 99 := by omega
        have q100 : k / 100 = 4 * n400 + 3 := by omega
        have q400 : k / 400 = n400 := by omega
        rw [q4, q100, q400]
        omega
  · have hlp : (decide (n1 = 3 ∧ (¬ n4 = 24 ∨ n100 = 3))) =
        isLeap (400 * n400 + 100 * n100 + 4 * n4 + n1 + 1) := by
      have hiff : (decide (n1 = 3 ∧ (¬ n4 = 24 ∨ n100 = 3)) = true) ↔
          (isLeap (400 * n400 + 100 * n100 + 4 * n4 + n1 + 1) = true) := by
        rw [decide_eq_true_iff, isLeap_iff]; omega
      cases hb : isLeap (400 * n400 + 100 * n100 + 4 * n4 + n1 + 1) <;>
        cases hc : decide (n1 = 3 ∧ (¬ n4 = 24 ∨ n100 = 3)) <;> simp_all
    obtain ⟨mc1, mc2, mc3, mc4, mc5⟩ :=
      monthDay_correct (decide (n1 = 3 ∧ (¬ n4 = 24 ∨ n100 = 3))) r1 b4
    constructor
    · simp only [isValidDate]
      refine ⟨by omega, by omega, mc1, mc2, mc3, ?_⟩
      rw [daysInMonth, ← hlp]
      exact mc4
    · dsimp only [toOrdinal]
      rw [daysBeforeMonth, ← hlp]
      simp only [daysBeforeYear]
      obtain ⟨k, hk⟩ : ∃ k, 400 * n400 + 100 * n100 + 4 * n4 + n1 + 1 - 1 = k :=
        ⟨_, rfl⟩
      rw [hk]
      have hn1 : n1 ≤ 3 := by omega
      have hn100 : n100 ≤ 3 := by omega
      have hn4 : n4 ≤ 24 := by omega
      have q4 : k / 4 = 100 * n400 + 25 * n100 + n4 := by omega
      have q100 : k / 100 = 4 * n400 + n100 := by omega
      have q400 : k / 400 = n400 := by omega
      rw [q4, q100, q400]
      omega

theorem fromOrdinal_correct (n : Nat) (h1 : 1 ≤ n) (h2 : n ≤ maxOrdinal) :
    isValidDate (fromOrdinal n) ∧ toOrdinal (fromOrdinal n) = n := by
  have hmax : n ≤ 3652059 := h2
  simp only [fromOrdinal]
  exact ord2ymd_correct n _ _ _ _ _ _ _ _ h1 hmax
    (Nat.div_add_mod (n - 1) 146097) (Nat.mod_lt _ (by norm_num))
    (Nat.div_add_mod _ 36524) (Nat.mod_lt _ (by norm_num))
    (Nat.div_add_mod _ 1461) (Nat.mod_lt _ (by norm_num))
    (Nat.div_add_mod _ 365) (Nat.mod_lt _ (by norm_num))

theorem isAsciiDigit_dchar (k : Nat) (h : k ≤ 9) : isAsciiDigit (dchar k) = true := by
  interval_cases k <;> decide

theorem dval_dchar (k : Nat) (h : k ≤ 9) : dval (dchar k) = k := by
  interval_cases k <;> decide

theorem daysInMonth_le_31 (y m : Nat) : daysInMonth y m ≤ 31 := by
  unfold daysInMonth
  split
  · norm_num
  · unfold daysInMonthT
    split <;> norm_num

theorem randint_mem (g : Nat → Nat) (M : Int) (hM : 0 ≤ M) (k : Nat) :
    -M ≤ randint g (-M) M k ∧ randint g (-M) M k ≤ M := by
  unfold randint
  have hpos : (0:Int) < M + 1 - -M := by omega
  have h1 : 0 ≤ (g k : Int) % (M + 1 - -M) := Int.emod_nonneg _ (by omega)
  have h2 : (g k : Int) % (M + 1 - -M) < M + 1 - -M := Int.emod_lt_of_pos _ hpos
  omega

theorem subDates_nil (g : Nat → Nat) (fmt : Fmt) (M : Int) (st : St) :
    subDates g fmt M [] st = ([], st) := by
  simp [subDates]

theorem subDates_cons_hit (g : Nat → Nat) (fmt : Fmt) (M : Int) (st : St)
    (c : Char) (cs : List Char) (h : dateShape ((c :: cs).take 10) = true) :
    subDates g fmt M (c :: cs) st =
      ((shift_date g fmt M ((c :: cs).take 10) st.idx).out.getD ((c :: cs).take 10) ++
        (subDates g fmt M ((c :: cs).drop 10)
          (advanceSt st (shift_date g fmt M ((c :: cs).take 10) st.idx))).1,
       (subDates g fmt M ((c :: cs).drop 10)
          (advanceSt st (shift_date g fmt M ((c :: cs).take 10) st.idx))).2) := by
  rw [subDates, if_pos h]

theorem subDates_cons_miss (g : Nat → Nat) (fmt : Fmt) (M : Int) (st : St)
    (c : Char) (cs : List Char) (h : dateShape ((c :: cs).take 10) = false) :
    subDates g fmt M (c :: cs) st =
      (c :: (subDates g fmt M cs st).1, (subDates g fmt M cs st).2) := by
  rw [subDates, if_neg (by rw [h]; decide)]

theorem countLine_nil (fmt : Fmt) : countLine fmt [] = 0 := by
  simp [countLine]

theorem countLine_cons_hit (fmt : Fmt) (c : Char) (cs : List Char)
    (h : dateShape ((c :: cs).take 10) = true) :
    countLine fmt (c :: cs) =
      (if (parseTok fmt ((c :: cs).take 10)).isSome then 1 else 0) +
        countLine fmt ((c :: cs).drop 10) := by
  rw [countLine, if_pos h]

theorem countLine_cons_miss (fmt : Fmt) (c : Char) (cs : List Char)
    (h : dateShape ((c :: cs).take 10) = false) :
    countLine fmt (c :: cs) = countLine fmt cs := by
  rw [countLine, if_neg (by rw [h]; decide)]

theorem dateShape_length {l : List Char} (h : dateShape l = true) : l.length = 10 := by
  unfold dateShape at h
  split at h
  · simp_all
  · simp at h

theorem take_append_of_len10 {tok : List Char} (suf : List Char)
    (h : tok.length = 10) : (tok ++ suf).take 10 = tok := by
  rw [← h, List.take_left]

theorem drop_append_of_len10 {tok : List Char} (suf : List Char)
    (h : tok.length = 10) : (tok ++ suf).drop 10 = suf := by
  rw [← h, List.drop_left]

theorem dateShape_elim {l : List Char} (h : dateShape l = true) :
    ∃ y1 y2 y3 y4 m1 m2 d1 d2 : Char,
      l = [y1, y2, y3, y4, '-', m1, m2, '-', d1, d2] ∧
      isAsciiDigit y1 = true ∧ isAsciiDigit y2 = true ∧ isAsciiDigit y3 = true ∧
      isAsciiDigit y4 = true ∧ isAsciiDigit m1 = true ∧ isAsciiDigit m2 = true ∧
      isAsciiDigit d1 = true ∧ isAsciiDigit d2 = true := by
  unfold dateShape at h
  split at h
  · rename_i y1 y2 y3 y4 h1 m1 m2 h2 d1 d2
    obtain ⟨a1, a2, a3, a4, a5, a6, a7, a8, a9, a10⟩ := of_decide_eq_true h
    exact ⟨y1, y2, y3, y4, m1, m2, d1, d2, by rw [a5, a8], a1, a2, a3, a4, a6, a7, a9, a10⟩
  · simp at h

theorem subDates_token_head (g : Nat → Nat) (fmt : Fmt) (M : Int) (st : St)
    (y1 y2 y3 y4 m1 m2 d1 d2 : Char) (suf : List Char)
    (h : dateShape [y1, y2, y3, y4, '-', m1, m2, '-', d1, d2] = true) :
    subDates g fmt M ([y1, y2, y3, y4, '-', m1, m2, '-', d1, d2] ++ suf) st =
      ((shift_date g fmt M [y1, y2, y3, y4, '-', m1, m2, '-', d1, d2] st.idx).out.getD
          [y1, y2, y3, y4, '-', m1, m2, '-', d1, d2] ++
        (subDates g fmt M suf
          (advanceSt st
            (shift_date g fmt M [y1, y2, y3, y4, '-', m1, m2, '-', d1, d2] st.idx))).1,
       (subDates g fmt M suf
          (advanceSt st
            (shift_date g fmt M [y1, y2, y3, y4, '-', m1, m2, '-', d1, d2] st.idx))).2) := by
  have ht : (([y1, y2, y3, y4, '-', m1, m2, '-', d1, d2] : List Char) ++ suf).take 10 =
      [y1, y2, y3, y4, '-', m1, m2, '-', d1, d2] := List.take_left' rfl
  have hd : (([y1, y2, y3, y4, '-', m1, m2, '-', d1, d2] : List Char) ++ suf).drop 10 =
      suf := List.drop_left' rfl
  rw [show ([y1, y2, y3, y4, '-', m1, m2, '-', d1, d2] : List Char) ++ suf =
      y1 :: ([y2, y3, y4, '-', m1, m2, '-', d1, d2] ++ suf) from rfl] at ht hd ⊢
  rw [subDates_cons_hit g fmt M st y1 _ (by rw [ht]; exact h)]
  rw [ht, hd]

theorem shift_date_next (g : Nat → Nat) (fmt : Fmt) (M : Int) (tok : List Char)
    (k : Nat) (hM : 0 ≤ M) :
    (shift_date g fmt M tok k).next =
      k + (if (parseTok fmt tok).isSome then 1 else 0) := by
  unfold shift_date
  cases hp : parseTok fmt tok <;> simp [hp]
  rw [if_neg (by omega)]
  split <;> rfl

theorem shift_date_next_of_none (g : Nat → Nat) (fmt : Fmt) (M : Int) (tok : List Char)
    (k : Nat) (hp : parseTok fmt tok = none) :
    shift_date g fmt M tok k = ⟨none, k, true, false⟩ := by
  unfold shift_date
  rw [hp]

theorem subDates_idx (g : Nat → Nat) (fmt : Fmt) (M : Int) (hM : 0 ≤ M) :
    ∀ (n : Nat) (l : List Char), l.length ≤ n → ∀ st : St,
    (subDates g fmt M l st).2.idx = st.idx + countLine fmt l := by
  intro n
  induction n with
  | zero =>
    intro l hl st
    have hnil : l = [] := List.eq_nil_of_length_eq_zero (by omega)
    subst hnil
    simp [subDates_nil, countLine_nil]
  | succ n ih =>
    intro l hl st
    match l with
    | [] => simp [subDates_nil, countLine_nil]
    | c :: cs =>
      cases h : dateShape ((c :: cs).take 10)
      · rw [subDates_cons_miss g fmt M st c cs h, countLine_cons_miss fmt c cs h]
        exact ih cs (by simp at hl; omega) st
      · rw [subDates_cons_hit g fmt M st c cs h, countLine_cons_hit fmt c cs h]
        have hlen : ((c :: cs).drop 10).length ≤ n := by
          simp [List.length_drop] at hl ⊢
          omega
        rw [ih _ hlen]
        simp only [advanceSt]
        rw [shift_date_next g fmt M _ _ hM]
        omega

theorem processLines_idx (g : Nat → Nat) (fmt : Fmt) (M : Int) (hM : 0 ≤ M) :
    ∀ (ls : List (List Char)) (st : St),
    (processLines g fmt M ls st).2.idx = st.idx + (ls.map (countLine fmt)).sum := by
  intro ls
  induction ls with
  | nil => intro st; simp [processLines]
  | cons l ls ih =>
    intro st
    simp only [processLines]
    rw [ih]
    rw [subDates_idx g fmt M hM l.length l le_rfl]
    simp
    omega

theorem subDates_segs (g : Nat → Nat) (fmt : Fmt) (M : Int) :
    ∀ (n : Nat) (l : List Char), l.length ≤ n → ∀ st : St,
    ∃ segs : List Seg, segsOrig segs = l ∧ segsOut segs = (subDates g fmt M l st).1 ∧
      ∀ s ∈ segs, segWellFormed s := by
  intro n
  induction n with
  | zero =>
    intro l hl st
    have hnil : l = [] := List.eq_nil_of_length_eq_zero (by omega)
    subst hnil
    exact ⟨[], rfl, by simp [subDates_nil, segsOut], by simp⟩
  | succ n ih =>
    intro l hl st
    match l with
    | [] => exact ⟨[], rfl, by simp [subDates_nil, segsOut], by simp⟩
    | c :: cs =>
      cases h : dateShape ((c :: cs).take 10)
      · obtain ⟨segs, h1, h2, h3⟩ := ih cs (by simp at hl; omega) st
        refine ⟨.lit c :: segs, ?_, ?_, ?_⟩
        · simp [segsOrig, h1]
        · rw [subDates_cons_miss g fmt M st c cs h]
          simp [segsOut, h2]
        · intro s hs
          rcases List.mem_cons.mp hs with rfl | hs
          · trivial
          · exact h3 s hs
      · obtain ⟨segs, h1, h2, h3⟩ :=
          ih ((c :: cs).drop 10)
            (by simp [List.length_drop] at hl ⊢; omega)
            (advanceSt st (shift_date g fmt M ((c :: cs).take 10) st.idx))
        refine ⟨.tok ((c :: cs).take 10)
            ((shift_date g fmt M ((c :: cs).take 10) st.idx).out.getD
              ((c :: cs).take 10)) :: segs, ?_, ?_, ?_⟩
        · simp [segsOrig, h1]
        · rw [subDates_cons_hit g fmt M st c cs h]
          simp [segsOut, h2]
        · intro s hs
          rcases List.mem_cons.mp hs with rfl | hs
          · exact h
          · exact h3 s hs

theorem segsOrig_append (a b : List Seg) :
    segsOrig (a ++ b) = segsOrig a ++ segsOrig b := by
  induction a with
  | nil => rfl
  | cons s ss ih => cases s <;> simp [segsOrig, ih]

theorem segsOut_append (a b : List Seg) :
    segsOut (a ++ b) = segsOut a ++ segsOut b := by
  induction a with
  | nil => rfl
  | cons s ss ih => cases s <;> simp [segsOut, ih]

theorem processLines_segs (g : Nat → Nat) (fmt : Fmt) (M : Int) :
    ∀ (ls : List (List Char)) (st : St),
    ∃ segs : List Seg, segsOrig segs = ls.flatten ∧
      segsOut segs = (processLines g fmt M ls st).1 ∧ ∀ s ∈ segs, segWellFormed s := by
  intro ls
  induction ls with
  | nil => exact fun st => ⟨[], rfl, by simp [processLines, segsOut], by simp⟩
  | cons l ls ih =>
    intro st
    obtain ⟨sa, a1, a2, a3⟩ := subDates_segs g fmt M l.length l le_rfl st
    obtain ⟨sb, b1, b2, b3⟩ := ih (subDates g fmt M l st).2
    refine ⟨sa ++ sb, ?_, ?_, ?_⟩
    · rw [segsOrig_append, a1, b1]
      simp
    · rw [segsOut_append, a2, b2]
      simp [processLines]
    · intro s hs
      rcases List.mem_append.mp hs with hm | hm
      exacts [a3 s hm, b3 s hm]

theorem splitLinesAux_join : ∀ (l acc : List Char),
    (splitLinesAux l acc).flatten = acc.reverse ++ l := by
  intro l
  induction l with
  | nil =>
    intro acc
    by_cases h : acc = []
    · simp [splitLinesAux, h]
    · simp [splitLinesAux, h]
  | cons c cs ih =>
    intro acc
    by_cases h : c = '\n'
    · subst h
      simp [splitLinesAux, ih]
    · simp only [splitLinesAux, if_neg h]
      rw [ih (c :: acc)]
      simp

theorem splitLines_join (l : List Char) : (splitLines l).flatten = l := by
  simpa using splitLinesAux_join l []

theorem univNL_no_cr : ∀ (l : List Char), '\r' ∉ l → univNL l = l := by
  intro l
  induction l using univNL.induct with
  | case1 => intro; rfl
  | case2 rest ih => intro h; simp at h
  | case3 rest hne ih => intro h; simp at h
  | case4 c rest hne1 hne2 ih =>
    intro h
    have hc : c ≠ '\r' := fun hx => h (by rw [← hx]; exact List.mem_cons_self _ _)
    have hcs : '\r' ∉ rest := fun hm => h (List.mem_cons_of_mem _ hm)
    rw [univNL.eq_4 c rest (fun _ hx _ => hc hx) (fun hx => hc hx), ih hcs]

theorem digits2_recompose (m : Nat) (h : m ≤ 99) :
    10 * (m / 10 % 10) + m % 10 = m := by
  omega

theorem digits4_recompose (y : Nat) (h : y ≤ 9999) :
    1000 * (y / 1000 % 10) + 100 * (y / 100 % 10) + 10 * (y / 10 % 10) + y % 10 = y := by
  omega

theorem yearDigits_of_ge1000 (y : Nat) (h : 1000 ≤ y) : yearDigits y = pad4 y := by
  unfold yearDigits pad4
  rw [if_pos h, if_pos (by omega : 100 ≤ y), if_pos (by omega : 10 ≤ y)]
  simp

theorem parse_render_ymd (d : Date) (hv : isValidDate d) (hy : 1000 ≤ d.year) :
    parseYMDtok (renderYMD d) = some d := by
  obtain ⟨h1, h2, h3, h4, h5, h6⟩ := hv
  have hm99 : d.month ≤ 99 := by omega
  have hd99 : d.day ≤ 99 := by
    have := daysInMonth_le_31 d.year d.month
    omega
  rw [renderYMD, yearDigits_of_ge1000 d.year hy]
  simp only [pad4, pad2, List.cons_append, List.nil_append]
  simp only [parseYMDtok]
  rw [if_pos ⟨isAsciiDigit_dchar _ (by omega), isAsciiDigit_dchar _ (by omega),
    isAsciiDigit_dchar _ (by omega), isAsciiDigit_dchar _ (by omega), trivial,
    isAsciiDigit_dchar _ (by omega), isAsciiDigit_dchar _ (by omega), trivial,
    isAsciiDigit_dchar _ (by omega), isAsciiDigit_dchar _ (by omega)⟩]
  rw [dval_dchar _ (by omega), dval_dchar _ (by omega), dval_dchar _ (by omega),
    dval_dchar _ (by omega), dval_dchar _ (by omega), dval_dchar _ (by omega),
    dval_dchar _ (by omega), dval_dchar _ (by omega)]
  rw [digits4_recompose d.year h2, digits2_recompose d.month hm99,
    digits2_recompose d.day hd99]
  rw [if_pos ⟨h1, h3, h4, h5, h6⟩]

theorem parseDMYtok_shaped {l : List Char} (h : dateShape l = true) :
    parseDMYtok l = none := by
  obtain ⟨y1, y2, y3, y4, m1, m2, d1, d2, rfl, a1, a2, a3, a4, a5, a6, a7, a8⟩ :=
    dateShape_elim h
  simp only [parseDMYtok]
  rw [if_neg]
  rintro ⟨-, -, hs, -⟩
  rw [hs] at a3
  exact absurd a3 (by decide)

theorem shift_date_some (g : Nat → Nat) (fmt : Fmt) (M : Int) (tok : List Char)
    (k : Nat) (d : Date) (out : List Char) (hp : parseTok fmt tok = some d)
    (hs : (shift_date g fmt M tok k).out = some out) :
    0 ≤ M ∧
    ∃ o : Nat, 1 ≤ o ∧ o ≤ maxOrdinal ∧
      (o : Int) = (toOrdinal d : Int) + randint g (-M) M k ∧
      isValidDate (fromOrdinal o) ∧ toOrdinal (fromOrdinal o) = o ∧
      out = renderD fmt (fromOrdinal o) := by
  simp only [shift_date, hp] at hs
  by_cases hM : M < 0
  · rw [if_pos hM] at hs
    simp at hs
  · rw [if_neg hM] at hs
    by_cases hc : 1 ≤ (toOrdinal d : Int) + randint g (-M) M k ∧
        (toOrdinal d : Int) + randint g (-M) M k ≤ (maxOrdinal : Int)
    · rw [if_pos hc] at hs
      simp only [Option.some.injEq] at hs
      obtain ⟨hc1, hc2⟩ := hc
      refine ⟨by omega, ((toOrdinal d : Int) + randint g (-M) M k).toNat, ?_, ?_, ?_, ?_, ?_, ?_⟩
      · omega
      · have : ((maxOrdinal : Nat) : Int) = 3652059 := by norm_num [maxOrdinal]
        omega
      · omega
      · exact (fromOrdinal_correct _ (by omega) (by omega)).1
      · exact (fromOrdinal_correct _ (by omega) (by omega)).2
      · exact hs.symm
    · rw [if_neg hc] at hs
      simp at hs

theorem subDates_unparsed_head (g : Nat → Nat) (fmt : Fmt) (M : Int) (st : St)
    (tok suf : List Char) (h1 : dateShape tok = true) (h2 : parseTok fmt tok = none) :
    subDates g fmt M (tok ++ suf) st =
      (tok ++ (subDates g fmt M suf ⟨st.idx, st.warns + 1, st.errs⟩).1,
        (subDates g fmt M suf ⟨st.idx, st.warns + 1, st.errs⟩).2) := by
  obtain ⟨y1, y2, y3, y4, m1, m2, d1, d2, rfl, -⟩ := dateShape_elim h1
  rw [subDates_token_head g fmt M st y1 y2 y3 y4 m1 m2 d1 d2 suf h1]
  rw [shift_date_next_of_none g fmt M _ st.idx h2]
  simp [advanceSt]

theorem anonymize_text_idx (g : Nat → Nat) (fmt : Fmt) (M : Int) (hM : 0 ≤ M)
    (text : List Char) (st : St) :
    (anonymize_text g fmt M text st).2.idx = st.idx + countText fmt (univNL text) := by
  unfold anonymize_text countText
  rw [processLines_idx g fmt M hM]

/-- C1: Determinism.  For a fixed seed — hence a fixed stream of raw
draws — fixed `max_shift_days`, fixed date format and fixed input text,
two runs of the filter produce identical output text and identical final
state: the transformation is a function of `(stream, M, format, text)`
alone, scanning matches in left-to-right, line-by-line order with one
shared stream.  (A fixed encoding fixes the decoded text, which is the
model's input.) -/
theorem c1_determinism (g1 g2 : Nat → Nat) (fmt : Fmt) (M : Int)
    (text : List Char) (st : St) (h : ∀ n, g1 n = g2 n) :
    anonymize_text g1 fmt M text st = anonymize_text g2 fmt M text st := by
  have hg : g1 = g2 := funext h
  rw [hg]

/-- C1 witness: the two syntactically different all-zero streams on the
specification's concrete scenario line. -/
theorem c1_determinism_witness :
    (∀ n : Nat, gzero n = gzeroMul n) ∧
    anonymize_text gzero .ymd 10 ("Visit on 2023-06-15 and again on 2023-07-01.".toList) st0 =
      anonymize_text gzeroMul .ymd 10 ("Visit on 2023-06-15 and again on 2023-07-01.".toList) st0 :=
  ⟨fun n => (Nat.zero_mul n).symm,
    c1_determinism gzero gzeroMul .ymd 10 _ st0 (fun n => (Nat.zero_mul n).symm)⟩

/-- C2: Range bound.  A successfully shifted and re-rendered token's
emitted date differs from the parsed original by the drawn shift, which
lies in `[-M, M]`; moreover every value of that closed interval —
including zero — is attainable by some raw draw, and distinct raw draws
below the interval size give distinct shifts (the draw is the uniform
image of the raw stream). -/
theorem c2_range_bound (g : Nat → Nat) (fmt : Fmt) (M : Int) (tok : List Char)
    (k : Nat) (d : Date) (out : List Char) (hM : 1 ≤ M)
    (hp : parseTok fmt tok = some d) (hs : (shift_date g fmt M tok k).out = some out) :
    (∃ d' : Date, out = renderD fmt d' ∧ isValidDate d' ∧
      (toOrdinal d' : Int) = (toOrdinal d : Int) + randint g (-M) M k ∧
      -M ≤ randint g (-M) M k ∧ randint g (-M) M k ≤ M) ∧
    (∀ s : Int, -M ≤ s → s ≤ M → ∃ gs : Nat → Nat, randint gs (-M) M k = s) ∧
    (∃ gz : Nat → Nat, randint gz (-M) M k = 0) ∧
    (∀ v1 v2 : Nat, (v1 : Int) < 2 * M + 1 → (v2 : Int) < 2 * M + 1 →
      randint (fun _ => v1) (-M) M k = randint (fun _ => v2) (-M) M k → v1 = v2) := by
  obtain ⟨hM0, o, ho1, ho2, hoeq, hval, hround, hout⟩ :=
    shift_date_some g fmt M tok k d out hp hs
  obtain ⟨hr1, hr2⟩ := randint_mem g M hM0 k
  have hatt : ∀ s : Int, -M ≤ s → s ≤ M → ∃ gs : Nat → Nat, randint gs (-M) M k = s := by
    intro s hs1 hs2
    refine ⟨fun _ => (s + M).toNat, ?_⟩
    show -M + ((((s + M).toNat : Nat) : Int) % (M + 1 - -M)) = s
    have h0 : 0 ≤ s + M := by omega
    rw [Int.toNat_of_nonneg h0]
    rw [Int.emod_eq_of_lt h0 (by omega)]
    omega
  refine ⟨⟨fromOrdinal o, hout, hval, ?_, hr1, hr2⟩, hatt,
    hatt 0 (by omega) (by omega), ?_⟩
  · rw [hround]
    omega
  · intro v1 v2 h1 h2 he
    have e1 : randint (fun _ => v1) (-M) M k = -M + (v1 : Int) := by
      show -M + (((v1 : Nat) : Int) % (M + 1 - -M)) = -M + (v1 : Int)
      rw [Int.emod_eq_of_lt (by omega) (by omega)]
    have e2 : randint (fun _ => v2) (-M) M k = -M + (v2 : Int) := by
      show -M + (((v2 : Nat) : Int) % (M + 1 - -M)) = -M + (v2 : Int)
      rw [Int.emod_eq_of_lt (by omega) (by omega)]
    rw [e1, e2] at he
    omega

/-- C2 witness: the default format, `M = 10`, token `2023-06-15`, raw
draw 3 at index 0 (shift −7, output `2023-06-08`). -/
theorem c2_range_bound_witness :
    ((1:Int) ≤ 10 ∧ parseTok .ymd ("2023-06-15".toList) = some ⟨2023, 6, 15⟩ ∧
      (shift_date gconst3 .ymd 10 ("2023-06-15".toList) 0).out =
        some ("2023-06-08".toList)) ∧
    ((∃ d' : Date, ("2023-06-08".toList) = renderD .ymd d' ∧ isValidDate d' ∧
      (toOrdinal d' : Int) = (toOrdinal (⟨2023, 6, 15⟩ : Date) : Int) +
        randint gconst3 (-10) 10 0 ∧
      -10 ≤ randint gconst3 (-10) 10 0 ∧ randint gconst3 (-10) 10 0 ≤ 10) ∧
    (∀ s : Int, -10 ≤ s → s ≤ 10 → ∃ gs : Nat → Nat, randint gs (-10) 10 0 = s) ∧
    (∃ gz : Nat → Nat, randint gz (-10) 10 0 = 0) ∧
    (∀ v1 v2 : Nat, (v1 : Int) < 2 * 10 + 1 → (v2 : Int) < 2 * 10 + 1 →
      randint (fun _ => v1) (-10) 10 0 = randint (fun _ => v2) (-10) 10 0 → v1 = v2)) :=
  ⟨⟨by decide, by decide, by decide⟩,
    c2_range_bound gconst3 .ymd 10 ("2023-06-15".toList) 0 ⟨2023, 6, 15⟩
      ("2023-06-08".toList) (by decide) (by decide) (by decide)⟩

/-- C3: Malformed-match passthrough.  A scanner-shaped token that fails
to parse under the configured format (for example an impossible calendar
date) is emitted unchanged at its position, one warning is logged, the
stream does not advance, and the scan continues with the rest of the
text; in the model the scan is total, so a parse failure never aborts the
run. -/
theorem c3_malformed_passthrough (g : Nat → Nat) (fmt : Fmt) (M : Int) (st : St)
    (tok suf : List Char) (h1 : dateShape tok = true) (h2 : parseTok fmt tok = none) :
    subDates g fmt M (tok ++ suf) st =
      (tok ++ (subDates g fmt M suf ⟨st.idx, st.warns + 1, st.errs⟩).1,
        (subDates g fmt M suf ⟨st.idx, st.warns + 1, st.errs⟩).2) :=
  subDates_unparsed_head g fmt M st tok suf h1 h2

/-- C3 witness: the impossible date `2023-02-30` under the default
format. -/
theorem c3_malformed_passthrough_witness :
    (dateShape ("2023-02-30".toList) = true ∧
      parseTok .ymd ("2023-02-30".toList) = none) ∧
    subDates gzero .ymd 365 (("2023-02-30".toList) ++ (" end".toList)) st0 =
      (("2023-02-30".toList) ++
        (subDates gzero .ymd 365 (" end".toList) ⟨st0.idx, st0.warns + 1, st0.errs⟩).1,
       (subDates gzero .ymd 365 (" end".toList) ⟨st0.idx, st0.warns + 1, st0.errs⟩).2) :=
  ⟨⟨by decide, by decide⟩,
    c3_malformed_passthrough gzero .ymd 365 st0 _ _ (by decide) (by decide)⟩

/-- C4 (amended): Format decoupling for shape-incompatible formats.  The
scanner's pattern is fixed independently of the configured format (the
scan function does not consult it), and under the claim's example
`%d/%m/%Y` every YYYY-MM-DD-shaped token is still matched, fails to
parse — its third character is a digit where the pattern requires a
slash — and is left unchanged with a warning; the original claim's "every
non-default pattern" is too strong, see the counterexample. -/
theorem c4_format_decoupling (g : Nat → Nat) (M : Int) (st : St)
    (tok suf : List Char) (h : dateShape tok = true) :
    parseTok .dmy tok = none ∧
    subDates g .dmy M (tok ++ suf) st =
      (tok ++ (subDates g .dmy M suf ⟨st.idx, st.warns + 1, st.errs⟩).1,
        (subDates g .dmy M suf ⟨st.idx, st.warns + 1, st.errs⟩).2) := by
  have hp : parseTok .dmy tok = none := parseDMYtok_shaped h
  exact ⟨hp, subDates_unparsed_head g .dmy M st tok suf h hp⟩

/-- C4 witness: the token `2023-06-15` under `%d/%m/%Y`. -/
theorem c4_format_decoupling_witness :
    dateShape ("2023-06-15".toList) = true ∧
    (parseTok .dmy ("2023-06-15".toList) = none ∧
      subDates gzero .dmy 365 (("2023-06-15".toList) ++ []) st0 =
        (("2023-06-15".toList) ++
          (subDates gzero .dmy 365 [] ⟨st0.idx, st0.warns + 1, st0.errs⟩).1,
         (subDates gzero .dmy 365 [] ⟨st0.idx, st0.warns + 1, st0.errs⟩).2)) :=
  ⟨by decide, c4_format_decoupling gzero 365 st0 ("2023-06-15".toList) [] (by decide)⟩

/-- C4 counterexample: `%Y-%H-%M` is a non-default format under which a
YYYY-MM-DD-shaped token does parse (as midnight of January 1st) and is
replaced by a different string, refuting the claim's universal
quantification over non-default patterns. -/
theorem c4_counterexample :
    Fmt.yhm ≠ Fmt.ymd ∧
    dateShape ("2023-06-15".toList) = true ∧
    parseTok .yhm ("2023-06-15".toList) = some ⟨2023, 1, 1⟩ ∧
    (subDates gzero .yhm 10 ("2023-06-15".toList) st0).1 = ("2022-00-00".toList) ∧
    ("2022-00-00".toList) ≠ ("2023-06-15".toList) := by
  refine ⟨by decide, by decide, by decide, ?_, by decide⟩
  rw [show ("2023-06-15".toList) =
      ['2', '0', '2', '3', '-', '0', '6', '-', '1', '5'] ++ ([] : List Char) from rfl]
  rw [subDates_token_head gzero .yhm 10 st0 '2' '0' '2' '3' '0' '6' '1' '5' []
    (by decide)]
  rw [subDates_nil]
  decide

/-- C5: Draw discipline.  The stream index after one `shift_date` call
advances by one exactly when the token parses under the configured format
(also when the later shift overflows and nothing is emitted) and is
unchanged when parsing fails; consequently a whole run consumes exactly
one draw per successfully parsed match of the translated input text. -/
theorem c5_draw_discipline (g : Nat → Nat) (fmt : Fmt) (M : Int) (hM : 0 ≤ M)
    (tok : List Char) (k : Nat) (text : List Char) (st : St) :
    (shift_date g fmt M tok k).next =
      k + (if (parseTok fmt tok).isSome then 1 else 0) ∧
    (anonymize_text g fmt M text st).2.idx = st.idx + countText fmt (univNL text) :=
  ⟨shift_date_next g fmt M tok k hM, anonymize_text_idx g fmt M hM text st⟩

/-- C5 witness: one parsed token (one draw), one malformed token (no
draw), over a two-line text. -/
theorem c5_draw_discipline_witness :
    (0:Int) ≤ 10 ∧
    ((shift_date gconst3 .ymd 10 ("2023-06-15".toList) 0).next =
      0 + (if (parseTok .ymd ("2023-06-15".toList)).isSome then 1 else 0) ∧
    (anonymize_text gconst3 .ymd 10 ("a 2023-06-15 b\n2023-02-30\n".toList) st0).2.idx =
      st0.idx + countText .ymd (univNL ("a 2023-06-15 b\n2023-02-30\n".toList))) :=
  ⟨by decide,
    c5_draw_discipline gconst3 .ymd 10 (by decide) ("2023-06-15".toList) 0
      ("a 2023-06-15 b\n2023-02-30\n".toList) st0⟩

/-- C6 (amended): Non-matched content preserved after newline
translation.  Every run's output decomposes, in order, into exactly the
literal characters of the newline-translated input (copied unchanged,
including the `\n` terminators the translation produced) and the
replacements of scanner-matched tokens; only matched tokens may differ.
The original claim's byte-for-byte preservation of the input's own line
terminators fails because text mode translates `\r\n` and `\r` to `\n`
on read (see the counterexample); for inputs without `\r` the
translation is the identity, by `univNL_no_cr`. -/
theorem c6_content_preserved (g : Nat → Nat) (fmt : Fmt) (M : Int)
    (text : List Char) (st : St) :
    ∃ segs : List Seg, segsOrig segs = univNL text ∧
      segsOut segs = (anonymize_text g fmt M text st).1 ∧
      ∀ s ∈ segs, segWellFormed s := by
  obtain ⟨segs, h1, h2, h3⟩ := processLines_segs g fmt M (splitLines (univNL text)) st
  exact ⟨segs, by rw [h1, splitLines_join], h2, h3⟩

/-- C6 counterexample: `x\r\n` contains no scanner match at all, yet the
output is `x\n`, not the input — the `\r\n` terminator was not
reproduced byte-for-byte. -/
theorem c6_counterexample :
    hasDateWindow ("x\r\n".toList) = false ∧
    (anonymize_text gzero .ymd 365 ("x\r\n".toList) st0).1 = ("x\n".toList) ∧
    ("x\n".toList) ≠ ("x\r\n".toList) := by
  refine ⟨by decide, ?_, by decide⟩
  rw [show anonymize_text gzero .ymd 365 ("x\r\n".toList) st0 =
      processLines gzero .ymd 365 [['x', '\n']] st0 from rfl]
  simp only [processLines]
  rw [subDates_cons_miss gzero .ymd 365 st0 'x' ['\n'] (by decide)]
  rw [subDates_cons_miss gzero .ymd 365 st0 '\n' [] (by decide)]
  rw [subDates_nil]
  decide

/-- C7 (amended): Round-trip legality under the default format for
four-digit shifted years.  A successfully shifted date emitted under
`%Y-%m-%d` whose shifted year is at least 1000 parses back under the same
format to a valid calendar date within `[original − M, original + M]`
days of the parsed original.  Both restrictions are forced by the
counterexample: under the non-default `%Y-%H-%M` the re-parsed date can
fall outside the window, and under the default format a shifted year
below 1000 renders unpadded (glibc `%Y`) and does not parse back at
all. -/
theorem c7_round_trip (g : Nat → Nat) (M : Int) (tok : List Char) (k : Nat)
    (d : Date) (out : List Char) (hp : parseTok .ymd tok = some d)
    (hs : (shift_date g .ymd M tok k).out = some out)
    (hy : 1000 ≤ (fromOrdinal ((toOrdinal d : Int) + randint g (-M) M k).toNat).year) :
    ∃ d' : Date, parseTok .ymd out = some d' ∧ isValidDate d' ∧
      (toOrdinal d : Int) - M ≤ (toOrdinal d' : Int) ∧
      (toOrdinal d' : Int) ≤ (toOrdinal d : Int) + M := by
  obtain ⟨hM0, o, ho1, ho2, hoeq, hval, hround, hout⟩ :=
    shift_date_some g .ymd M tok k d out hp hs
  obtain ⟨hr1, hr2⟩ := randint_mem g M hM0 k
  have hno : ((toOrdinal d : Int) + randint g (-M) M k).toNat = o := by omega
  rw [hno] at hy
  refine ⟨fromOrdinal o, ?_, hval, ?_, ?_⟩
  · rw [hout]
    show parseYMDtok (renderYMD (fromOrdinal o)) = some (fromOrdinal o)
    exact parse_render_ymd _ hval hy
  · rw [hround]
    omega
  · rw [hround]
    omega

/-- C7 witness: token `2023-06-15`, `M = 10`, raw draw 3 (shift −7):
the shifted year 2023 has four digits and the emitted `2023-06-08`
parses back within ten days. -/
theorem c7_round_trip_witness :
    (parseTok .ymd ("2023-06-15".toList) = some ⟨2023, 6, 15⟩ ∧
      (shift_date gconst3 .ymd 10 ("2023-06-15".toList) 0).out =
        some ("2023-06-08".toList) ∧
      1000 ≤ (fromOrdinal ((toOrdinal (⟨2023, 6, 15⟩ : Date) : Int) +
        randint gconst3 (-10) 10 0).toNat).year) ∧
    (∃ d' : Date, parseTok .ymd ("2023-06-08".toList) = some d' ∧ isValidDate d' ∧
      (toOrdinal (⟨2023, 6, 15⟩ : Date) : Int) - 10 ≤ (toOrdinal d' : Int) ∧
      (toOrdinal d' : Int) ≤ (toOrdinal (⟨2023, 6, 15⟩ : Date) : Int) + 10) :=
  ⟨⟨by decide, by decide, by decide⟩,
    c7_round_trip gconst3 10 ("2023-06-15".toList) 0 ⟨2023, 6, 15⟩
      ("2023-06-08".toList) (by decide) (by decide) (by decide)⟩

/-- C7 counterexample.  First, under the default format `%Y-%m-%d` with
`M = 10`, the matched token `0001-01-05` parses, a −4-day shift reaches
0001-01-01, glibc's unpadded `%Y` renders it `1-01-01`, and that string
does not parse back at all under the same format.  Second, under the
configured format `%Y-%H-%M`, token `2023-06-15` parses to 2023-01-01, a
−10-day shift is rendered `2022-00-00`, which re-parses to 2022-01-01 —
365 days away, outside `[original − 10, original + 10]`. -/
theorem c7_counterexample :
    (parseTok .ymd ("0001-01-05".toList) = some ⟨1, 1, 5⟩ ∧
      (shift_date gconst6 .ymd 10 ("0001-01-05".toList) 0).out =
        some ("1-01-01".toList) ∧
      parseTok .ymd ("1-01-01".toList) = none) ∧
    ((shift_date gzero .yhm 10 ("2023-06-15".toList) 0).out =
        some ("2022-00-00".toList) ∧
      parseTok .yhm ("2023-06-15".toList) = some ⟨2023, 1, 1⟩ ∧
      parseTok .yhm ("2022-00-00".toList) = some ⟨2022, 1, 1⟩ ∧
      toOrdinal ⟨2022, 1, 1⟩ + 10 < toOrdinal ⟨2023, 1, 1⟩) :=
  ⟨⟨by decide, by decide, by decide⟩, ⟨by decide, by decide, by decide, by decide⟩⟩

/-- C8: Fatal aborts before any output I/O.  If the input path does not
exist, or no encoding is supplied and detection yields nothing usable,
`anonymize_data` returns the corresponding logged-error outcome reached
before the `open` of the output file: the output is never opened and
nothing is written. -/
theorem c8_abort_before_io (w : FileSys) (g : Nat → Nat) (fmt : Fmt) (M : Int)
    (encodingArg : Option (List Char))
    (h : w.inputExists = false ∨ (encodingArg = none ∧ w.detectResult = none)) :
    outputOpened (anonymize_data w g fmt M encodingArg) = false ∧
    outputWritten (anonymize_data w g fmt M encodingArg) = [] ∧
    (anonymize_data w g fmt M encodingArg = .errNoInput ∨
      anonymize_data w g fmt M encodingArg = .errNoEncoding) := by
  unfold anonymize_data
  rcases h with h | ⟨h1, h2⟩
  · rw [if_pos h]
    exact ⟨rfl, rfl, Or.inl rfl⟩
  · by_cases hex : w.inputExists = false
    · rw [if_pos hex]
      exact ⟨rfl, rfl, Or.inl rfl⟩
    · rw [if_neg hex, h1, h2]
      exact ⟨rfl, rfl, Or.inr rfl⟩

/-- C8 witness: a missing input path, and separately an existing input
with failed detection and no encoding argument. -/
theorem c8_abort_before_io_witness :
    (wMissing.inputExists = false ∨
      ((none : Option (List Char)) = none ∧ wMissing.detectResult = none)) ∧
    (outputOpened (anonymize_data wMissing gzero .ymd 365 none) = false ∧
     outputWritten (anonymize_data wMissing gzero .ymd 365 none) = [] ∧
     (anonymize_data wMissing gzero .ymd 365 none = .errNoInput ∨
      anonymize_data wMissing gzero .ymd 365 none = .errNoEncoding)) :=
  ⟨Or.inl rfl, c8_abort_before_io wMissing gzero .ymd 365 none (Or.inl rfl)⟩

/-- C9: No word-boundary anchoring.  A digit immediately preceding a
YYYY-MM-DD-shaped window does not prevent the match: the scan copies the
leading digit, extracts the embedded ten-character window, hands it to
`shift_date`, emits the replacement (or the original on failure), and
continues after it — altering a substring that is not a standalone date
token. -/
theorem c9_embedded_match (g : Nat → Nat) (fmt : Fmt) (M : Int) (st : St)
    (c y1 y2 y3 y4 m1 m2 d1 d2 : Char) (suf : List Char)
    (hdig : isAsciiDigit c = true)
    (h : dateShape [y1, y2, y3, y4, '-', m1, m2, '-', d1, d2] = true) :
    subDates g fmt M (c :: ([y1, y2, y3, y4, '-', m1, m2, '-', d1, d2] ++ suf)) st =
      (c :: ((shift_date g fmt M [y1, y2, y3, y4, '-', m1, m2, '-', d1, d2] st.idx).out.getD
          [y1, y2, y3, y4, '-', m1, m2, '-', d1, d2] ++
        (subDates g fmt M suf
          (advanceSt st
            (shift_date g fmt M [y1, y2, y3, y4, '-', m1, m2, '-', d1, d2] st.idx))).1),
       (subDates g fmt M suf
          (advanceSt st
            (shift_date g fmt M [y1, y2, y3, y4, '-', m1, m2, '-', d1, d2] st.idx))).2) := by
  have hmiss : dateShape ((c :: ([y1, y2, y3, y4, '-', m1, m2, '-', d1, d2] ++ suf)).take 10) =
      false := by
    rw [show ((c :: ([y1, y2, y3, y4, '-', m1, m2, '-', d1, d2] ++ suf)).take 10) =
        [c, y1, y2, y3, y4, '-', m1, m2, '-', d1] from rfl]
    simp only [dateShape]
    rw [decide_eq_false]
    rintro ⟨-, -, -, -, -, h6, -⟩
    exact absurd h6 (by decide)
  rw [subDates_cons_miss g fmt M st c _ hmiss]
  rw [subDates_token_head g fmt M st y1 y2 y3 y4 m1 m2 d1 d2 suf h]

/-- C9 witness: the embedded window of `12023-01-0212` (leading digit
`1`, token `2023-01-02`, trailing `12`). -/
theorem c9_embedded_match_witness :
    (isAsciiDigit '1' = true ∧
      dateShape ['2', '0', '2', '3', '-', '0', '1', '-', '0', '2'] = true) ∧
    subDates gconst3 .ymd 10
        ('1' :: (['2', '0', '2', '3', '-', '0', '1', '-', '0', '2'] ++ ("12".toList))) st0 =
      ('1' :: ((shift_date gconst3 .ymd 10
            ['2', '0', '2', '3', '-', '0', '1', '-', '0', '2'] st0.idx).out.getD
          ['2', '0', '2', '3', '-', '0', '1', '-', '0', '2'] ++
        (subDates gconst3 .ymd 10 ("12".toList)
          (advanceSt st0
            (shift_date gconst3 .ymd 10
              ['2', '0', '2', '3', '-', '0', '1', '-', '0', '2'] st0.idx))).1),
       (subDates gconst3 .ymd 10 ("12".toList)
          (advanceSt st0
            (shift_date gconst3 .ymd 10
              ['2', '0', '2', '3', '-', '0', '1', '-', '0', '2'] st0.idx))).2) :=
  ⟨⟨by decide, by decide⟩,
    c9_embedded_match gconst3 .ymd 10 st0 '1' '2' '0' '2' '3' '0' '1' '0' '2'
      ("12".toList) (by decide) (by decide)⟩

/-- C10: Total, logging control flow.  `main` always returns normally
(success status); the logged-error flag is set exactly on the failure
paths — non-positive `max_shift_days`, missing input, failed encoding
resolution, or an exception in the processing loop — and cleared on a
completed run.  No failure path escapes the catch points. -/
theorem c10_main_returns (w : FileSys) (g : Nat → Nat) (fmt : Fmt) (M : Int)
    (encodingArg : Option (List Char)) :
    mainRun w g fmt M encodingArg =
      .returned (decide (M ≤ 0) || !w.inputExists ||
        (encodingArg.isNone && w.detectResult.isNone) || w.loopFails) := by
  unfold mainRun anonymize_data
  by_cases hM : M ≤ 0
  · rw [if_pos hM]
    simp [hM]
  · rw [if_neg hM]
    cases hex : w.inputExists
    · simp [hex, hM]
    · cases henc : encodingArg <;> cases hdet : w.detectResult <;>
        cases hlf : w.loopFails <;> simp [hex, henc, hdet, hlf, hM]
